import Mathlib

set_option maxRecDepth 40000

/-!
Shallow embedding of the WavCue repository (`src/main.rs`): a RIFF/WAVE
chunk walker extracting the `fmt ` header, `cue ` cue points and the
optional `bext` broadcast-audio extension, plus the per-cue reporting loop.

Modelling conventions:
* the input file is a byte stream, modelled as `List Nat`; every read
  normalises the bytes it returns modulo 256 (a real file only holds
  values below 256);
* Rust machine integers are modelled as `Nat` with explicit `% 2^w`
  wherever the source's `u32` arithmetic can wrap (release semantics);
* `std::io::Error` results (from `read_exact`) are the `ioError` value of
  `WaveError`; an `assert!`/`panic!` process abort in the source is the
  `abort` value, carrying the panic message — keeping the two classes of
  failure distinguishable in the model;
* `f64` arithmetic in the reporting loop is modelled with exact rationals
  (`ℚ`); the claims settled here do not depend on rounding of `f64`;
* the `while let` chunk loop is modelled with a fuel parameter; each
  iteration consumes at least 8 bytes, so fuel `s.length` is always
  sufficient, and `walkChunks` instantiates the fuel that way.  The
  `eprintln!` diagnostics and the `size`/`bytes_processed` accounting
  (used only by diagnostics) are not part of the model's result.
-/

/-- Models `reader.read_exact` into an `n`-byte buffer: succeeds exactly
when `n` bytes remain, returning the (normalised) bytes and the rest of
the stream. -/
def readExact (n : Nat) (s : List Nat) : Option (List Nat × List Nat) :=
  if n ≤ s.length then some ((s.take n).map (· % 256), s.drop n) else none

/-- Little-endian byte-list to natural number, as in `u32::from_le_bytes`
and `u16::from_le_bytes` (applied to already-normalised byte lists). -/
def fromLE (l : List Nat) : Nat :=
  l.foldr (fun b acc => b + 256 * acc) 0

/-- Little-endian 4-byte encoding of `n % 2^32`; used to build the test
streams that the theorems quantify over (the encoder direction of the
byte-layout contract). -/
def le32enc (n : Nat) : List Nat :=
  [n % 256, n / 256 % 256, n / 65536 % 256, n / 16777216 % 256]

/-- Models the Rust enum `DataChunkId`. -/
inductive DataChunkId where
  | data : DataChunkId
  | sint : DataChunkId
deriving DecidableEq

/-- Models the Rust struct `CueEntry`. -/
structure CueEntry where
  cue_id : Nat
  position : Nat
  data_chunk_id : DataChunkId
  chunk_start : Nat
  block_start : Nat
  sample_start : Nat
deriving DecidableEq

/-- Models the Rust struct `BroadcastAudioExtension`; the text fields are
kept as the lists of Unicode code points the lossy UTF-8 decode yields. -/
structure BroadcastAudioExtension where
  description : List Nat
  originator : List Nat
  originator_reference : List Nat
  origination_date : List Nat
  origination_time : List Nat
  time_reference : Nat
  version : Nat
deriving DecidableEq

/-- Models the Rust struct `Header` (decoded `fmt ` chunk). -/
structure Header where
  compression_code : Nat
  number_of_channels : Nat
  sampling_rate : Nat
  average_bytes_per_second : Nat
  block_align : Nat
  significant_bits_per_sample : Nat
deriving DecidableEq

/-- Models the Rust struct `WaveFileInfo`. -/
structure WaveFileInfo where
  header : Header
  cues : List CueEntry
  bext : Option BroadcastAudioExtension
deriving DecidableEq

/-- Failure of `read_wave`: `ioError` models a propagated
`std::io::Error` (`?` on `read_exact`); `abort` models a process abort
(`assert!` or explicit `panic!`), carrying the panic message. -/
inductive WaveError where
  | ioError : WaveError
  | abort : String → WaveError
deriving DecidableEq

/-- Fuel-indexed body of the lossy UTF-8 decoder: each step consumes one
unit of fuel and at least one byte, so fuel `l.length` is always
sufficient (see `utf8Lossy`). -/
def utf8LossyF : Nat → List Nat → List Nat
  | 0, _ => []
  | _ + 1, [] => []
  | f + 1, b :: l =>
    if b ≤ 0x7F then b :: utf8LossyF f l
    else if 0xC2 ≤ b ∧ b ≤ 0xDF then
      match l with
      | [] => [0xFFFD]
      | c :: l' =>
        if 0x80 ≤ c ∧ c ≤ 0xBF then
          ((b - 0xC0) * 64 + (c - 0x80)) :: utf8LossyF f l'
        else 0xFFFD :: utf8LossyF f l
    else if 0xE0 ≤ b ∧ b ≤ 0xEF then
      match l with
      | [] => [0xFFFD]
      | c :: l' =>
        if (b = 0xE0 ∧ 0xA0 ≤ c ∧ c ≤ 0xBF) ∨
            (0xE1 ≤ b ∧ b ≤ 0xEC ∧ 0x80 ≤ c ∧ c ≤ 0xBF) ∨
            (b = 0xED ∧ 0x80 ≤ c ∧ c ≤ 0x9F) ∨
            (0xEE ≤ b ∧ 0x80 ≤ c ∧ c ≤ 0xBF) then
          match l' with
          | [] => [0xFFFD]
          | d :: l'' =>
            if 0x80 ≤ d ∧ d ≤ 0xBF then
              ((b - 0xE0) * 4096 + (c - 0x80) * 64 + (d - 0x80)) :: utf8LossyF f l''
            else 0xFFFD :: utf8LossyF f l'
        else 0xFFFD :: utf8LossyF f l
    else if 0xF0 ≤ b ∧ b ≤ 0xF4 then
      match l with
      | [] => [0xFFFD]
      | c :: l' =>
        if (b = 0xF0 ∧ 0x90 ≤ c ∧ c ≤ 0xBF) ∨
            (0xF1 ≤ b ∧ b ≤ 0xF3 ∧ 0x80 ≤ c ∧ c ≤ 0xBF) ∨
            (b = 0xF4 ∧ 0x80 ≤ c ∧ c ≤ 0x8F) then
          match l' with
          | [] => [0xFFFD]
          | d :: l'' =>
            if 0x80 ≤ d ∧ d ≤ 0xBF then
              match l'' with
              | [] => [0xFFFD]
              | e :: l''' =>
                if 0x80 ≤ e ∧ e ≤ 0xBF then
                  ((b - 0xF0) * 262144 + (c - 0x80) * 4096 +
                    (d - 0x80) * 64 + (e - 0x80)) :: utf8LossyF f l'''
                else 0xFFFD :: utf8LossyF f l''
            else 0xFFFD :: utf8LossyF f l'
        else 0xFFFD :: utf8LossyF f l
    else 0xFFFD :: utf8LossyF f l

/-- Models `String::from_utf8_lossy`: decodes a byte list to the list of
Unicode code points, replacing each maximal invalid subsequence prefix
with U+FFFD (65533) per the standard library's validation ranges. -/
def utf8Lossy (l : List Nat) : List Nat :=
  utf8LossyF l.length l

/-- Models `.trim_end_matches(char::from(0))` on a decoded code-point
list: removes the maximal run of trailing NUL code points. -/
def trimEnd0 (l : List Nat) : List Nat :=
  (l.reverse.dropWhile (fun b => b = 0)).reverse

/-- Models the field extraction of the `bext` branch of `read_wave` from
the 348-byte buffer `buf_bext` (offsets 0, 256, 288, 320, 330, 338, 342,
346 as accumulated in `ofs`). -/
def decodeBext (buf : List Nat) : BroadcastAudioExtension :=
  { description := trimEnd0 (utf8Lossy (buf.take 256))
    originator := trimEnd0 (utf8Lossy ((buf.drop 256).take 32))
    originator_reference := trimEnd0 (utf8Lossy ((buf.drop 288).take 32))
    origination_date := utf8Lossy ((buf.drop 320).take 10)
    origination_time := utf8Lossy ((buf.drop 330).take 8)
    time_reference := fromLE ((buf.drop 338).take 4) |||
      (fromLE ((buf.drop 342).take 4) <<< 32)
    version := fromLE ((buf.drop 346).take 2) }

/-- Models the field extraction of the `fmt ` branch of `read_wave` from
the 16-byte buffer `buf_fmt`. -/
def decodeFmt (buf : List Nat) : Header :=
  { compression_code := fromLE (buf.take 2)
    number_of_channels := fromLE ((buf.drop 2).take 2)
    sampling_rate := fromLE ((buf.drop 4).take 4)
    average_bytes_per_second := fromLE ((buf.drop 8).take 4)
    block_align := fromLE ((buf.drop 12).take 2)
    significant_bits_per_sample := fromLE ((buf.drop 14).take 2) }

/-- Models the body of the per-record loop of the `cue ` branch: decode
one 24-byte record `buf_cue`; an unknown chunk-type discriminant is the
`panic!("Aiee")` abort. -/
def decodeCue (buf : List Nat) : Except WaveError CueEntry :=
  if (buf.drop 8).take 4 = [100, 97, 116, 97] then
    .ok { cue_id := fromLE (buf.take 4)
          position := fromLE ((buf.drop 4).take 4)
          data_chunk_id := .data
          chunk_start := fromLE ((buf.drop 12).take 4)
          block_start := fromLE ((buf.drop 16).take 4)
          sample_start := fromLE ((buf.drop 20).take 4) }
  else if (buf.drop 8).take 4 = [115, 105, 110, 116] then
    .ok { cue_id := fromLE (buf.take 4)
          position := fromLE ((buf.drop 4).take 4)
          data_chunk_id := .sint
          chunk_start := fromLE ((buf.drop 12).take 4)
          block_start := fromLE ((buf.drop 16).take 4)
          sample_start := fromLE ((buf.drop 20).take 4) }
  else .error (.abort "Aiee")

/-- Models the `for _ in 0..num_cue_points` loop of the `cue ` branch:
read and decode `n` 24-byte records, pushing each entry onto `acc` in
order; a failing `read_exact` is an I/O error. -/
def readCuePoints : Nat → List Nat → List CueEntry →
    Except WaveError (List CueEntry × List Nat)
  | 0, s, acc => .ok (acc, s)
  | n + 1, s, acc =>
    match readExact 24 s with
    | none => .error .ioError
    | some (buf, s') =>
      match decodeCue buf with
      | .error e => .error e
      | .ok entry => readCuePoints n s' (acc ++ [entry])

/-- Result of the chunk loop: the accumulated cue entries, optional bext
record, optional header, and the remaining (unconsumed) stream. -/
abbrev WalkResult :=
  Except WaveError
    (List CueEntry × Option BroadcastAudioExtension × Option Header × List Nat)

/-- One iteration of the `while let Ok(()) = reader.read_exact(&mut
buf_tag)` loop of `read_wave`, with the recursive continuation abstracted
as `recur`: a failing tag read ends the loop normally; a failing size
read is an I/O error; a zero chunk size and the undersized / duplicate
chunk conditions are the source's `assert!` aborts; unknown tags seek
past `chunk_size` bytes. -/
def walkStep
    (recur : List Nat → List CueEntry → Option BroadcastAudioExtension →
      Option Header → WalkResult)
    (s : List Nat) (cues : List CueEntry)
    (bext : Option BroadcastAudioExtension) (header : Option Header) :
    WalkResult :=
  match readExact 4 s with
  | none => .ok (cues, bext, header, s)
  | some (tag, s1) =>
    match readExact 4 s1 with
    | none => .error .ioError
    | some (szb, s2) =>
      let chunkSize := fromLE szb
      if chunkSize = 0 then .error (.abort "assertion failed: chunk_size > 0")
      else if tag = [98, 101, 120, 116] then
        if chunkSize < 348 then
          .error (.abort "assertion failed: chunk_size as usize >= buf_bext.len()")
        else
          match readExact 348 s2 with
          | none => .error .ioError
          | some (buf, s3) =>
            recur (s3.drop (chunkSize - 348)) cues (some (decodeBext buf)) header
      else if tag = [102, 109, 116, 32] then
        if chunkSize < 16 then
          .error (.abort "assertion failed: chunk_size >= 16")
        else if header.isSome then
          .error (.abort "assertion failed: header.is_none()")
        else
          match readExact 16 s2 with
          | none => .error .ioError
          | some (buf, s3) =>
            recur (s3.drop (chunkSize - 16)) cues bext (some (decodeFmt buf))
      else if tag = [99, 117, 101, 32] then
        match readExact 4 s2 with
        | none => .error .ioError
        | some (cntb, s3) =>
          let n := fromLE cntb
          if chunkSize ≠ (4 + 24 * n) % 4294967296 then
            .error (.abort "assertion failed: chunk_size == 4 + 24 * num_cue_points")
          else
            match readCuePoints n s3 cues with
            | .error e => .error e
            | .ok (cues2, s4) => recur s4 cues2 bext header
      else
        recur (s2.drop chunkSize) cues bext header

/-- Fuel-indexed chunk loop.  Every iteration consumes at least 8 bytes
of the stream, so any fuel of at least `s.length` computes the loop's
true result (with no fuel left the stream is empty and the tag read
fails, which is exactly the loop's normal exit). -/
def walkChunksF : Nat → List Nat → List CueEntry →
    Option BroadcastAudioExtension → Option Header → WalkResult
  | 0, s, cues, bext, header => .ok (cues, bext, header, s)
  | fuel + 1, s, cues, bext, header => walkStep (walkChunksF fuel) s cues bext header

/-- The chunk loop of `read_wave`, at its sufficient fuel. -/
def walkChunks (s : List Nat) (cues : List CueEntry)
    (bext : Option BroadcastAudioExtension) (header : Option Header) :
    WalkResult :=
  walkChunksF s.length s cues bext header

/-- Models `read_wave` after the `RIFF` tag and the declared size field
have been consumed: the `WAVE` form check, the chunk loop, and the final
`No header` panic when no `fmt ` chunk was decoded. -/
def readWaveBody (s2 : List Nat) : Except WaveError WaveFileInfo :=
  match readExact 4 s2 with
  | none => .error .ioError
  | some (wav, s3) =>
    if wav = [87, 65, 86, 69] then
      match walkChunks s3 [] none none with
      | .error e => .error e
      | .ok (cues, bext, header, _) =>
        match header with
        | some h => .ok { header := h, cues := cues, bext := bext }
        | none => .error (.abort "No header")
    else .error (.abort "No header")

/-- Models `read_wave`: the `RIFF` magic, the 4-byte declared size (read
and then used only for diagnostics), and the rest of the parse.  A
missing `RIFF` magic prints a diagnostic and falls through to the
`No header` panic, exactly as in the source. -/
def read_wave (s : List Nat) : Except WaveError WaveFileInfo :=
  match readExact 4 s with
  | none => .error .ioError
  | some (riff, s1) =>
    if riff = [82, 73, 70, 70] then
      match readExact 4 s1 with
      | none => .error .ioError
      | some (_, s2) => readWaveBody s2
    else .error (.abort "No header")

/-- One line of the reporting loop of `process` (the `println!` per cue),
in structured form: the relative seconds, the cue id, and the optional
time-of-day triple.  `f64` is modelled as `ℚ`; the `as u32` casts
truncate and saturate at `u32::MAX`. -/
structure OutputLine where
  seconds : ℚ
  cueId : Nat
  timeLabel : Option (Nat × Nat × Nat)
deriving DecidableEq

/-- Body of the per-cue reporting loop of `process` (one `println!`). -/
def cueLine (wave : WaveFileInfo) (cue : CueEntry) : OutputLine :=
  let seconds : ℚ := (cue.sample_start : ℚ) / (wave.header.sampling_rate : ℚ)
  match wave.bext with
  | none => { seconds := seconds, cueId := cue.cue_id, timeLabel := none }
  | some b =>
    let time : ℚ := ((b.time_reference : ℚ) + (cue.sample_start : ℚ)) /
      (wave.header.sampling_rate : ℚ)
    { seconds := seconds
      cueId := cue.cue_id
      timeLabel := some (min (Nat.floor (time / 3600)) 4294967295,
        (min (Nat.floor (time / 60)) 4294967295) % 60,
        (min (Nat.floor time) 4294967295) % 60) }

/-- Models `process`: parse the file with `read_wave`, then emit one line
per cue entry, in order. -/
def process (s : List Nat) : Except WaveError (List OutputLine) :=
  (read_wave s).map fun wave => wave.cues.map (cueLine wave)

/-- A byte-level cue record the decoder accepts: 24 bytes, real byte
values, and one of the two known chunk-type discriminants at `[8:12)`. -/
def validCueRecord (r : List Nat) : Prop :=
  r.length = 24 ∧ (∀ b ∈ r, b < 256) ∧
    ((r.drop 8).take 4 = [100, 97, 116, 97] ∨ (r.drop 8).take 4 = [115, 105, 110, 116])

/-- C4 counterexample payload: 348 bytes, with marker bytes 9,9,9,9 at
offsets 306..310 and the little-endian word 1 at offsets 338..342. -/
def p4 : List Nat :=
  List.replicate 306 0 ++ [9, 9, 9, 9] ++ List.replicate 28 0 ++
    [1, 0, 0, 0] ++ List.replicate 6 0

/-- C4 counterexample input stream: a RIFF/WAVE file with a `bext` chunk
carrying payload `p4` followed by a minimal `fmt ` chunk. -/
def fileC4 : List Nat :=
  [82, 73, 70, 70] ++ (le32enc 0 ++ ([87, 65, 86, 69] ++
    ([98, 101, 120, 116] ++ (le32enc 348 ++ (p4 ++
    ([102, 109, 116, 32] ++ (le32enc 16 ++ List.replicate 16 0)))))))

/-- Projection of a parse result onto its optional bext record. -/
def bextOf : Except WaveError WaveFileInfo → Option BroadcastAudioExtension
  | .ok w => w.bext
  | .error _ => none

/-- Two concrete well-formed cue records used by the C5 witness. -/
def recsW : List (List Nat) :=
  [[1, 0, 0, 0, 0, 0, 0, 0, 100, 97, 116, 97, 0, 0, 0, 0, 0, 0, 0, 0, 7, 0, 0, 0],
   [2, 0, 0, 0, 0, 0, 0, 0, 115, 105, 110, 116, 0, 0, 0, 0, 0, 0, 0, 0, 9, 0, 0, 0]]

/-! ### Basic facts about the stream primitives -/

theorem readExact_some {n : Nat} {s t s' : List Nat}
    (h : readExact n s = some (t, s')) :
    t = (s.take n).map (· % 256) ∧ s' = s.drop n ∧ n ≤ s.length := by
  unfold readExact at h
  split at h
  · exact ⟨by injection h with h'; cases h'; rfl,
      by injection h with h'; cases h'; rfl, by assumption⟩
  · cases h

theorem readExact_none {n : Nat} {s : List Nat} (h : s.length < n) :
    readExact n s = none := by
  unfold readExact
  rw [if_neg]
  omega

theorem readExact_append (l rest : List Nat) {n : Nat}
    (h : l.length = n) :
    readExact n (l ++ rest) = some (l.map (· % 256), rest) := by
  unfold readExact
  rw [if_pos, List.take_left' h, List.drop_left' h]
  rw [List.length_append]
  omega

theorem map_mod_eq_self {l : List Nat} (h : ∀ b ∈ l, b < 256) :
    l.map (· % 256) = l := by
  induction l with
  | nil => rfl
  | cons a t ih =>
    have ha : a < 256 := h a (List.mem_cons_self a t)
    simp only [List.map_cons, List.cons.injEq]
    exact ⟨Nat.mod_eq_of_lt ha, ih fun b hb => h b (List.mem_cons_of_mem a hb)⟩

theorem le32enc_length (n : Nat) : (le32enc n).length = 4 := rfl

theorem le32enc_lt (n : Nat) : ∀ b ∈ le32enc n, b < 256 := by
  intro b hb
  simp only [le32enc, List.mem_cons, List.not_mem_nil, or_false] at hb
  rcases hb with h | h | h | h <;> subst h <;> omega

theorem fromLE_le32enc (n : Nat) : fromLE (le32enc n) = n % 4294967296 := by
  simp only [fromLE, le32enc, List.foldr_cons, List.foldr_nil]
  omega

theorem readExact_le32enc (n : Nat) (rest : List Nat) :
    readExact 4 (le32enc n ++ rest) = some (le32enc n, rest) := by
  rw [readExact_append (le32enc n) rest (le32enc_length n), map_mod_eq_self (le32enc_lt n)]

theorem readCuePoints_length : ∀ {n : Nat} {s : List Nat} {acc c : List CueEntry}
    {s' : List Nat}, readCuePoints n s acc = .ok (c, s') → s'.length ≤ s.length := by
  intro n
  induction n with
  | zero =>
    intro s acc c s' h
    simp only [readCuePoints, Except.ok.injEq, Prod.mk.injEq] at h
    rw [← h.2]
  | succ m ih =>
    intro s acc c s' h
    simp only [readCuePoints] at h
    cases h24 : readExact 24 s with
    | none => simp only [h24] at h; exact Except.noConfusion h
    | some p =>
      obtain ⟨buf, t⟩ := p
      simp only [h24] at h
      obtain ⟨-, ht, hlen⟩ := readExact_some h24
      cases hdc : decodeCue buf with
      | error e => simp only [hdc] at h; exact Except.noConfusion h
      | ok entry =>
        simp only [hdc] at h
        have := ih h
        subst ht
        rw [List.length_drop] at this
        omega


theorem walkStep_congr {r₁ r₂ : List Nat → List CueEntry →
      Option BroadcastAudioExtension → Option Header → WalkResult}
    {s : List Nat} {c : List CueEntry} {b : Option BroadcastAudioExtension}
    {hd : Option Header}
    (H : ∀ s' c' b' h', s'.length + 8 ≤ s.length → r₁ s' c' b' h' = r₂ s' c' b' h') :
    walkStep r₁ s c b hd = walkStep r₂ s c b hd := by
  unfold walkStep
  split
  · rfl
  · rename_i tag s1 h4
    split
    · rfl
    · rename_i szb s2 h8
      obtain ⟨-, hs1, hlen4⟩ := readExact_some h4
      obtain ⟨-, hs2, hlen8⟩ := readExact_some h8
      have hs2len : s2.length = s.length - 8 := by
        rw [hs2, hs1, List.length_drop, List.length_drop]
        omega
      have hslen : 8 ≤ s.length := by
        rw [hs1, List.length_drop] at hlen8
        omega
      dsimp only
      split_ifs with h0 hbx h348 hfm h16 hdup hcu
      · rfl
      · rfl
      · split
        · rfl
        · rename_i buf s3 h3
          obtain ⟨-, hs3, hlen348⟩ := readExact_some h3
          apply H
          rw [hs3]
          simp only [List.length_drop]
          omega
      · rfl
      · rfl
      · split
        · rfl
        · rename_i buf s3 h6
          obtain ⟨-, hs3, hlen16⟩ := readExact_some h6
          apply H
          rw [hs3]
          simp only [List.length_drop]
          omega
      · split
        · rfl
        · rename_i cntb s3 hc
          obtain ⟨-, hs3, hlenc⟩ := readExact_some hc
          split_ifs with hmis
          · rfl
          · split
            · rfl
            · rename_i cues2 s4 hcp
              apply H
              have hlcp := readCuePoints_length hcp
              rw [hs3, List.length_drop] at hlcp
              omega
      · apply H
        simp only [List.length_drop]
        omega

theorem walkChunksF_irrel : ∀ (f g : Nat) (s : List Nat) (c : List CueEntry)
    (b : Option BroadcastAudioExtension) (hd : Option Header),
    s.length ≤ f → s.length ≤ g →
    walkChunksF f s c b hd = walkChunksF g s c b hd := by
  intro f
  induction f with
  | zero =>
    intro g s c b hd hf hg
    have hnil : s = [] := List.eq_nil_of_length_eq_zero (by omega)
    subst hnil
    cases g with
    | zero => rfl
    | succ g' => simp [walkChunksF, walkStep, readExact]
  | succ f' ih =>
    intro g s c b hd hf hg
    cases g with
    | zero =>
      have hnil : s = [] := List.eq_nil_of_length_eq_zero (by omega)
      subst hnil
      simp [walkChunksF, walkStep, readExact]
    | succ g' =>
      simp only [walkChunksF]
      apply walkStep_congr
      intro s' c' b' h' hle
      exact ih g' s' c' b' h' (by omega) (by omega)

theorem walkChunks_unfold (s : List Nat) (c : List CueEntry)
    (b : Option BroadcastAudioExtension) (hd : Option Header) :
    walkChunks s c b hd =
      walkStep (fun s' c' b' h' => walkChunks s' c' b' h') s c b hd := by
  cases s with
  | nil => simp [walkChunks, walkChunksF, walkStep, readExact]
  | cons a t =>
    show walkChunksF (t.length + 1) (a :: t) c b hd = _
    simp only [walkChunksF]
    apply walkStep_congr
    intro s' c' b' h' hle
    exact walkChunksF_irrel t.length s'.length s' c' b' h'
      (by simp only [List.length_cons] at hle; omega) le_rfl

theorem walkChunks_short {s : List Nat} (h : s.length < 4)
    (c : List CueEntry) (b : Option BroadcastAudioExtension)
    (hd : Option Header) :
    walkChunks s c b hd = .ok (c, b, hd, s) := by
  rw [walkChunks_unfold]
  unfold walkStep
  rw [readExact_none h]

theorem read_wave_eq (size body : List Nat) (hsz : size.length = 4) :
    read_wave ([82, 73, 70, 70] ++ (size ++ ([87, 65, 86, 69] ++ body))) =
      match walkChunks body [] none none with
      | .error e => .error e
      | .ok (cues, bext, header, _) =>
        match header with
        | some h => .ok { header := h, cues := cues, bext := bext }
        | none => .error (.abort "No header") := by
  unfold read_wave readWaveBody
  rw [readExact_append [82, 73, 70, 70] (size ++ ([87, 65, 86, 69] ++ body))
    (show ([82, 73, 70, 70] : List Nat).length = 4 from rfl)]
  simp only [List.map_cons, List.map_nil, Nat.reduceMod, if_pos rfl]
  rw [readExact_append size ([87, 65, 86, 69] ++ body) hsz]
  simp only []
  rw [readExact_append [87, 65, 86, 69] body
    (show ([87, 65, 86, 69] : List Nat).length = 4 from rfl)]
  simp only [List.map_cons, List.map_nil, Nat.reduceMod, if_pos rfl, if_true]

theorem readExact_append_le (l rest : List Nat) {n : Nat} (h : n ≤ l.length) :
    readExact n (l ++ rest) = some ((l.take n).map (· % 256), l.drop n ++ rest) := by
  unfold readExact
  rw [if_pos (by rw [List.length_append]; omega), List.take_append_of_le_length h,
    List.drop_append_of_le_length h]

theorem walkChunks_skip (tag : List Nat) (sz : Nat) (payload rest : List Nat)
    (c : List CueEntry) (b : Option BroadcastAudioExtension) (hd : Option Header)
    (htag : tag.length = 4)
    (hbx : tag.map (· % 256) ≠ [98, 101, 120, 116])
    (hfm : tag.map (· % 256) ≠ [102, 109, 116, 32])
    (hcu : tag.map (· % 256) ≠ [99, 117, 101, 32])
    (hsz : sz < 4294967296) (hsz0 : sz ≠ 0) (hp : payload.length = sz) :
    walkChunks (tag ++ (le32enc sz ++ (payload ++ rest))) c b hd =
      walkChunks rest c b hd := by
  rw [walkChunks_unfold]
  unfold walkStep
  rw [readExact_append tag (le32enc sz ++ (payload ++ rest)) htag]
  simp only []
  rw [readExact_le32enc sz (payload ++ rest)]
  simp only [fromLE_le32enc, Nat.mod_eq_of_lt hsz]
  rw [if_neg hsz0, if_neg hbx, if_neg hfm, if_neg hcu, List.drop_left' hp]

theorem walkChunks_bext (sz : Nat) (payload rest : List Nat)
    (c : List CueEntry) (b : Option BroadcastAudioExtension) (hd : Option Header)
    (hsz : sz < 4294967296) (h348 : 348 ≤ sz) (hp : payload.length = sz) :
    walkChunks ([98, 101, 120, 116] ++ (le32enc sz ++ (payload ++ rest))) c b hd =
      walkChunks rest c (some (decodeBext ((payload.take 348).map (· % 256)))) hd := by
  rw [walkChunks_unfold]
  unfold walkStep
  rw [readExact_append [98, 101, 120, 116] (le32enc sz ++ (payload ++ rest))
    (show ([98, 101, 120, 116] : List Nat).length = 4 from rfl)]
  simp only [List.map_cons, List.map_nil, Nat.reduceMod]
  rw [readExact_le32enc sz (payload ++ rest)]
  simp only [fromLE_le32enc, Nat.mod_eq_of_lt hsz]
  rw [if_neg (show ¬ sz = 0 by omega), if_pos trivial, if_neg (show ¬ sz < 348 by omega)]
  rw [readExact_append_le payload rest (show 348 ≤ payload.length by omega)]
  simp only []
  rw [List.drop_left' (show (payload.drop 348).length = sz - 348 by
    rw [List.length_drop, hp])]

theorem walkChunks_fmt (sz : Nat) (payload rest : List Nat)
    (c : List CueEntry) (b : Option BroadcastAudioExtension)
    (hsz : sz < 4294967296) (h16 : 16 ≤ sz) (hp : payload.length = sz) :
    walkChunks ([102, 109, 116, 32] ++ (le32enc sz ++ (payload ++ rest))) c b none =
      walkChunks rest c b (some (decodeFmt ((payload.take 16).map (· % 256)))) := by
  rw [walkChunks_unfold]
  unfold walkStep
  rw [readExact_append [102, 109, 116, 32] (le32enc sz ++ (payload ++ rest))
    (show ([102, 109, 116, 32] : List Nat).length = 4 from rfl)]
  simp only [List.map_cons, List.map_nil, Nat.reduceMod]
  rw [readExact_le32enc sz (payload ++ rest)]
  simp only [fromLE_le32enc, Nat.mod_eq_of_lt hsz]
  rw [if_neg (show ¬ sz = 0 by omega), if_neg (by decide), if_pos trivial,
    if_neg (show ¬ sz < 16 by omega),
    if_neg (show ¬ ((none : Option Header).isSome = true) by simp)]
  rw [readExact_append_le payload rest (show 16 ≤ payload.length by omega)]
  simp only []
  rw [List.drop_left' (show (payload.drop 16).length = sz - 16 by
    rw [List.length_drop, hp])]

theorem walkChunks_cue (sz cnt : Nat) (body : List Nat)
    (c : List CueEntry) (b : Option BroadcastAudioExtension) (hd : Option Header)
    (hsz : sz < 4294967296) (hsz0 : sz ≠ 0) (hcnt : cnt < 4294967296) :
    walkChunks ([99, 117, 101, 32] ++ (le32enc sz ++ (le32enc cnt ++ body))) c b hd =
      if sz ≠ (4 + 24 * cnt) % 4294967296 then
        .error (.abort "assertion failed: chunk_size == 4 + 24 * num_cue_points")
      else
        match readCuePoints cnt body c with
        | .error e => .error e
        | .ok (c2, s4) => walkChunks s4 c2 b hd := by
  rw [walkChunks_unfold]
  unfold walkStep
  rw [readExact_append [99, 117, 101, 32] (le32enc sz ++ (le32enc cnt ++ body))
    (show ([99, 117, 101, 32] : List Nat).length = 4 from rfl)]
  simp only [List.map_cons, List.map_nil, Nat.reduceMod]
  rw [readExact_le32enc sz (le32enc cnt ++ body)]
  simp only [fromLE_le32enc, Nat.mod_eq_of_lt hsz]
  rw [if_neg hsz0, if_neg (by decide), if_neg (by decide), if_pos trivial]
  rw [readExact_le32enc cnt body]
  simp only [fromLE_le32enc, Nat.mod_eq_of_lt hcnt]

theorem decodeCue_valid {r : List Nat}
    (htag : (r.drop 8).take 4 = [100, 97, 116, 97] ∨
      (r.drop 8).take 4 = [115, 105, 110, 116]) :
    ∃ en, decodeCue r = .ok en := by
  rcases htag with h | h
  · exact ⟨_, by unfold decodeCue; rw [if_pos h]⟩
  · exact ⟨_, by unfold decodeCue; rw [if_neg (by rw [h]; decide), if_pos h]⟩

theorem decodeCue_bad {r : List Nat}
    (h1 : (r.drop 8).take 4 ≠ [100, 97, 116, 97])
    (h2 : (r.drop 8).take 4 ≠ [115, 105, 110, 116]) :
    decodeCue r = .error (.abort "Aiee") := by
  unfold decodeCue
  rw [if_neg h1, if_neg h2]

theorem readCuePoints_good : ∀ (records : List (List Nat)) (acc : List CueEntry)
    (s : List Nat), (∀ r ∈ records, validCueRecord r) →
    ∃ entries, readCuePoints records.length (records.flatten ++ s) acc = .ok (acc ++ entries, s) ∧
      entries.length = records.length ∧
      ∀ i (h1 : i < records.length) (h2 : i < entries.length),
        decodeCue (records.get ⟨i, h1⟩) = .ok (entries.get ⟨i, h2⟩) := by
  intro records
  induction records with
  | nil =>
    intro acc s _
    refine ⟨[], ?_, rfl, by intro i h1 h2; exact absurd h1 (by simp)⟩
    simp [readCuePoints]
  | cons r rs ih =>
    intro acc s hv
    obtain ⟨h24, hb, htag⟩ := hv r (List.mem_cons_self r rs)
    obtain ⟨en, hen⟩ := decodeCue_valid htag
    obtain ⟨entries, he1, he2, he3⟩ :=
      ih (acc ++ [en]) s (fun r' hr' => hv r' (List.mem_cons_of_mem r hr'))
    refine ⟨en :: entries, ?_, by simp [he2], ?_⟩
    · show readCuePoints (rs.length + 1) ((r :: rs).flatten ++ s) acc = _
      rw [show (r :: rs).flatten ++ s = r ++ (rs.flatten ++ s) by
        simp [List.append_assoc]]
      simp only [readCuePoints]
      rw [readExact_append r (rs.flatten ++ s) h24]
      simp only []
      rw [map_mod_eq_self hb, hen]
      simp only []
      rw [he1]
      simp [List.append_assoc]
    · intro i h1 h2
      cases i with
      | zero => simpa using hen
      | succ j =>
        have hj1 : j < rs.length := by simpa using h1
        have hj2 : j < entries.length := by simpa using h2
        simpa using he3 j hj1 hj2

theorem readCuePoints_bad : ∀ (records : List (List Nat)) (m : Nat)
    (acc : List CueEntry) (bad rest : List Nat),
    (∀ r ∈ records, validCueRecord r) → bad.length = 24 → (∀ b ∈ bad, b < 256) →
    (bad.drop 8).take 4 ≠ [100, 97, 116, 97] →
    (bad.drop 8).take 4 ≠ [115, 105, 110, 116] →
    readCuePoints (records.length + (m + 1)) (records.flatten ++ (bad ++ rest)) acc =
      .error (.abort "Aiee") := by
  intro records
  induction records with
  | nil =>
    intro m acc bad rest _ h24 hb hd1 hd2
    rw [show ([] : List (List Nat)).length + (m + 1) = m + 1 by simp]
    simp only [List.flatten_nil, List.nil_append]
    simp only [readCuePoints]
    rw [readExact_append bad rest h24]
    simp only []
    rw [map_mod_eq_self hb, decodeCue_bad hd1 hd2]
  | cons r rs ih =>
    intro m acc bad rest hv h24 hb hd1 hd2
    obtain ⟨hr24, hrb, hrtag⟩ := hv r (List.mem_cons_self r rs)
    obtain ⟨en, hen⟩ := decodeCue_valid hrtag
    rw [show (r :: rs).length + (m + 1) = (rs.length + (m + 1)) + 1 by
      simp [List.length_cons]; omega]
    rw [show (r :: rs).flatten ++ (bad ++ rest) = r ++ (rs.flatten ++ (bad ++ rest)) by
      simp [List.append_assoc]]
    simp only [readCuePoints]
    rw [readExact_append r (rs.flatten ++ (bad ++ rest)) hr24]
    simp only []
    rw [map_mod_eq_self hrb, hen]
    simp only []
    exact ih m (acc ++ [en]) bad rest
      (fun r' hr' => hv r' (List.mem_cons_of_mem r hr')) h24 hb hd1 hd2

theorem readExact_append_over {n : Nat} {s t s' : List Nat} (e : List Nat)
    (h : readExact n s = some (t, s')) :
    readExact n (s ++ e) = some (t, s' ++ e) := by
  obtain ⟨ht, hs', hn⟩ := readExact_some h
  subst ht hs'
  unfold readExact
  rw [if_pos (by rw [List.length_append]; omega),
    List.take_append_of_le_length hn, List.drop_append_of_le_length hn]

theorem readCuePoints_append : ∀ {n : Nat} {s : List Nat} {acc a : List CueEntry}
    {s4 : List Nat} (e : List Nat),
    readCuePoints n s acc = .ok (a, s4) →
    readCuePoints n (s ++ e) acc = .ok (a, s4 ++ e) := by
  intro n
  induction n with
  | zero =>
    intro s acc a s4 e h
    simp only [readCuePoints, Except.ok.injEq, Prod.mk.injEq] at h ⊢
    exact ⟨h.1, by rw [h.2]⟩
  | succ m ih =>
    intro s acc a s4 e h
    simp only [readCuePoints] at h ⊢
    cases h24 : readExact 24 s with
    | none => simp only [h24] at h; exact Except.noConfusion h
    | some p =>
      obtain ⟨buf, t⟩ := p
      rw [readExact_append_over e h24]
      simp only [h24] at h
      cases hdc : decodeCue buf with
      | error er => simp only [hdc] at h; exact Except.noConfusion h
      | ok en =>
        simp only [hdc] at h ⊢
        exact ih e h

theorem walkChunks_extend_aux : ∀ (n : Nat) (s e : List Nat) (c : List CueEntry)
    (b : Option BroadcastAudioExtension) (hd : Option Header)
    (c' : List CueEntry) (b' : Option BroadcastAudioExtension) (h' : Option Header),
    s.length ≤ n → e.length < 4 →
    walkChunks s c b hd = .ok (c', b', h', []) →
    ∃ r, walkChunks (s ++ e) c b hd = .ok (c', b', h', r) ∧ r.length < 4 := by
  intro n
  induction n with
  | zero =>
    intro s e c b hd c' b' h' hn he hok
    have hs : s = [] := List.eq_nil_of_length_eq_zero (by omega)
    subst hs
    rw [walkChunks_short (by simp) c b hd] at hok
    simp only [Except.ok.injEq, Prod.mk.injEq] at hok
    obtain ⟨hc, hb, hh, -⟩ := hok
    subst hc; subst hb; subst hh
    exact ⟨e, by rw [List.nil_append, walkChunks_short he], he⟩
  | succ m ih =>
    intro s e c b hd c' b' h' hn he hok
    rw [walkChunks_unfold] at hok
    rw [walkChunks_unfold]
    unfold walkStep at hok ⊢
    cases h4 : readExact 4 s with
    | none =>
      simp only [h4, Except.ok.injEq, Prod.mk.injEq] at hok
      obtain ⟨hc, hb, hh, hs⟩ := hok
      subst hc; subst hb; subst hh; subst hs
      refine ⟨e, ?_, he⟩
      simp only [List.nil_append]
      rw [readExact_none he]
    | some p1 =>
      obtain ⟨tag, s1⟩ := p1
      obtain ⟨-, hs1, hlen4⟩ := readExact_some h4
      simp only [readExact_append_over e h4]
      simp only [h4] at hok
      cases h8 : readExact 4 s1 with
      | none => simp only [h8] at hok; exact Except.noConfusion hok
      | some p2 =>
        obtain ⟨szb, s2⟩ := p2
        obtain ⟨-, hs2, hlen8⟩ := readExact_some h8
        have hs2len : s2.length = s.length - 8 := by
          rw [hs2, hs1, List.length_drop, List.length_drop]
          omega
        simp only [readExact_append_over e h8]
        simp only [h8] at hok
        by_cases h0 : fromLE szb = 0
        · rw [if_pos h0] at hok
          exact Except.noConfusion hok
        · rw [if_neg h0] at hok ⊢
          by_cases hbx : tag = [98, 101, 120, 116]
          · rw [if_pos hbx] at hok ⊢
            by_cases h348 : fromLE szb < 348
            · rw [if_pos h348] at hok
              exact Except.noConfusion hok
            · rw [if_neg h348] at hok ⊢
              cases h3 : readExact 348 s2 with
              | none => simp only [h3] at hok; exact Except.noConfusion hok
              | some p3 =>
                obtain ⟨buf, s3⟩ := p3
                obtain ⟨-, hs3, hlen348⟩ := readExact_some h3
                simp only [readExact_append_over e h3]
                simp only [h3] at hok
                by_cases hk : fromLE szb - 348 ≤ s3.length
                · obtain ⟨r, hr, hrlen⟩ := ih (s3.drop (fromLE szb - 348)) e c
                    (some (decodeBext buf)) hd c' b' h'
                    (by rw [List.length_drop]; rw [hs3, List.length_drop] at *; omega)
                    he hok
                  exact ⟨r, by rw [List.drop_append_of_le_length hk]; exact hr, hrlen⟩
                · push_neg at hk
                  rw [List.drop_eq_nil_of_le (by omega)] at hok
                  rw [walkChunks_short (by simp) _ _ _] at hok
                  simp only [Except.ok.injEq, Prod.mk.injEq] at hok
                  obtain ⟨hc, hb, hh, -⟩ := hok
                  have hlenr : ((s3 ++ e).drop (fromLE szb - 348)).length < 4 := by
                    rw [List.length_drop, List.length_append]
                    omega
                  refine ⟨(s3 ++ e).drop (fromLE szb - 348), ?_, hlenr⟩
                  rw [walkChunks_short hlenr, hc, hb, hh]
          · rw [if_neg hbx] at hok ⊢
            by_cases hfm : tag = [102, 109, 116, 32]
            · rw [if_pos hfm] at hok ⊢
              by_cases h16 : fromLE szb < 16
              · rw [if_pos h16] at hok
                exact Except.noConfusion hok
              · rw [if_neg h16] at hok ⊢
                by_cases hdup : hd.isSome = true
                · rw [if_pos hdup] at hok
                  exact Except.noConfusion hok
                · rw [if_neg hdup] at hok ⊢
                  cases h6 : readExact 16 s2 with
                  | none => simp only [h6] at hok; exact Except.noConfusion hok
                  | some p3 =>
                    obtain ⟨buf, s3⟩ := p3
                    obtain ⟨-, hs3, hlen16⟩ := readExact_some h6
                    simp only [readExact_append_over e h6]
                    simp only [h6] at hok
                    by_cases hk : fromLE szb - 16 ≤ s3.length
                    · obtain ⟨r, hr, hrlen⟩ := ih (s3.drop (fromLE szb - 16)) e c b
                        (some (decodeFmt buf)) c' b' h'
                        (by rw [List.length_drop]; rw [hs3, List.length_drop] at *; omega)
                        he hok
                      exact ⟨r, by rw [List.drop_append_of_le_length hk]; exact hr, hrlen⟩
                    · push_neg at hk
                      rw [List.drop_eq_nil_of_le (by omega)] at hok
                      rw [walkChunks_short (by simp) _ _ _] at hok
                      simp only [Except.ok.injEq, Prod.mk.injEq] at hok
                      obtain ⟨hc, hb, hh, -⟩ := hok
                      have hlenr : ((s3 ++ e).drop (fromLE szb - 16)).length < 4 := by
                        rw [List.length_drop, List.length_append]
                        omega
                      refine ⟨(s3 ++ e).drop (fromLE szb - 16), ?_, hlenr⟩
                      rw [walkChunks_short hlenr, hc, hb, hh]
            · rw [if_neg hfm] at hok ⊢
              by_cases hcu : tag = [99, 117, 101, 32]
              · rw [if_pos hcu] at hok ⊢
                cases hcb : readExact 4 s2 with
                | none => simp only [hcb] at hok; exact Except.noConfusion hok
                | some p3 =>
                  obtain ⟨cntb, s3⟩ := p3
                  obtain ⟨-, hs3, hlenc⟩ := readExact_some hcb
                  simp only [readExact_append_over e hcb]
                  simp only [hcb] at hok
                  by_cases hmis : fromLE szb ≠ (4 + 24 * fromLE cntb) % 4294967296
                  · rw [if_pos hmis] at hok
                    exact Except.noConfusion hok
                  · rw [if_neg hmis] at hok ⊢
                    cases hcp : readCuePoints (fromLE cntb) s3 c with
                    | error er => simp only [hcp] at hok; exact Except.noConfusion hok
                    | ok p4 =>
                      obtain ⟨c2, s4⟩ := p4
                      simp only [readCuePoints_append e hcp]
                      simp only [hcp] at hok
                      have hs4 : s4.length ≤ s3.length := readCuePoints_length hcp
                      obtain ⟨r, hr, hrlen⟩ := ih s4 e c2 b hd c' b' h'
                        (by rw [hs3, List.length_drop] at hs4; omega) he hok
                      exact ⟨r, hr, hrlen⟩
              · rw [if_neg hcu] at hok ⊢
                by_cases hk : fromLE szb ≤ s2.length
                · obtain ⟨r, hr, hrlen⟩ := ih (s2.drop (fromLE szb)) e c b hd c' b' h'
                    (by rw [List.length_drop]; omega) he hok
                  exact ⟨r, by rw [List.drop_append_of_le_length hk]; exact hr, hrlen⟩
                · push_neg at hk
                  rw [List.drop_eq_nil_of_le (by omega)] at hok
                  rw [walkChunks_short (by simp) _ _ _] at hok
                  simp only [Except.ok.injEq, Prod.mk.injEq] at hok
                  obtain ⟨hc, hb, hh, -⟩ := hok
                  have hlenr : ((s2 ++ e).drop (fromLE szb)).length < 4 := by
                    rw [List.length_drop, List.length_append]
                    omega
                  refine ⟨(s2 ++ e).drop (fromLE szb), ?_, hlenr⟩
                  rw [walkChunks_short hlenr, hc, hb, hh]

theorem walkChunks_extend {s e : List Nat} {c : List CueEntry}
    {b : Option BroadcastAudioExtension} {hd : Option Header}
    {c' : List CueEntry} {b' : Option BroadcastAudioExtension} {h' : Option Header}
    (he : e.length < 4) (hok : walkChunks s c b hd = .ok (c', b', h', [])) :
    ∃ r, walkChunks (s ++ e) c b hd = .ok (c', b', h', r) ∧ r.length < 4 :=
  walkChunks_extend_aux s.length s e c b hd c' b' h' le_rfl he hok

theorem utf8LossyF_ascii : ∀ (f : Nat) (l : List Nat), l.length ≤ f →
    (∀ b ∈ l, b < 128) → utf8LossyF f l = l := by
  intro f
  induction f with
  | zero =>
    intro l hf _
    have : l = [] := List.eq_nil_of_length_eq_zero (by omega)
    subst this
    rfl
  | succ g ih =>
    intro l hf hb
    cases l with
    | nil => rfl
    | cons b t =>
      have hblt : b < 128 := hb b (List.mem_cons_self b t)
      simp only [utf8LossyF]
      rw [if_pos (by omega)]
      rw [ih t (by simp only [List.length_cons] at hf; omega)
        (fun x hx => hb x (List.mem_cons_of_mem b hx))]

theorem utf8Lossy_ascii {l : List Nat} (hb : ∀ b ∈ l, b < 128) :
    utf8Lossy l = l :=
  utf8LossyF_ascii l.length l le_rfl hb

theorem head?_dropWhile_nul : ∀ (l : List Nat) (x : Nat),
    (l.dropWhile (fun b => b = 0)).head? = some x → x ≠ 0 := by
  intro l
  induction l with
  | nil => intro x h; simp [List.dropWhile] at h
  | cons a t ih =>
    intro x h
    rw [List.dropWhile_cons] at h
    split at h
    · exact ih x h
    · next hx =>
      simp only [List.head?_cons, Option.some.injEq] at h
      subst h
      simpa using hx

theorem trimEnd0_getLast? (l : List Nat) : (trimEnd0 l).getLast? ≠ some 0 := by
  unfold trimEnd0
  rw [List.getLast?_reverse]
  intro h
  exact head?_dropWhile_nul l.reverse 0 h rfl

theorem dropWhile_nul_replicate_append (k : Nat) (x : List Nat) :
    (List.replicate k 0 ++ x).dropWhile (fun b => b = 0) =
      x.dropWhile (fun b => b = 0) := by
  induction k with
  | zero => simp
  | succ j ih => simp [List.replicate_succ, List.dropWhile_cons, ih]

theorem trimEnd0_append_zeros (l : List Nat) (k : Nat) :
    trimEnd0 (l ++ List.replicate k 0) = trimEnd0 l := by
  unfold trimEnd0
  rw [List.reverse_append, List.reverse_replicate, dropWhile_nul_replicate_append]

theorem read_wave_bext_fmt (size p fmtPayload : List Nat) (hsize : size.length = 4)
    (hp : p.length = 348) (hpb : ∀ b ∈ p, b < 256) (hf : fmtPayload.length = 16) :
    read_wave ([82, 73, 70, 70] ++ (size ++ ([87, 65, 86, 69] ++
        ([98, 101, 120, 116] ++ (le32enc 348 ++ (p ++
        ([102, 109, 116, 32] ++ (le32enc 16 ++ fmtPayload)))))))) =
      .ok { header := decodeFmt ((fmtPayload.take 16).map (· % 256)),
            cues := [], bext := some (decodeBext p) } := by
  rw [read_wave_eq _ _ hsize]
  rw [walkChunks_bext 348 p ([102, 109, 116, 32] ++ (le32enc 16 ++ fmtPayload))
    [] none none (by omega) (by omega) hp]
  rw [List.take_of_length_le (by omega), map_mod_eq_self hpb]
  have hfmt := walkChunks_fmt 16 fmtPayload [] [] (some (decodeBext p))
    (by omega) (by omega) hf
  rw [List.append_nil] at hfmt
  rw [hfmt, walkChunks_short (by simp) _ _ _]

/-- C4: the claim reads the two time-reference words at payload offsets
306 and 310; the code reads them at 338 and 342.  On `fileC4` the decoded
time_reference is 1 (the word at 338), not 151587081 (the word at 306). -/
theorem c4_counterexample :
    bextOf (read_wave fileC4) = some (decodeBext p4) ∧
    (decodeBext p4).time_reference = 1 ∧
    fromLE ((p4.drop 306).take 4) ||| (fromLE ((p4.drop 310).take 4) <<< 32) =
      151587081 ∧
    (1 : Nat) ≠ 151587081 := by
  refine ⟨?_, by decide, by decide, by decide⟩
  rfl

/-- C4 (amended): for every decoded `bext` chunk, time_reference equals
low ||| (high <<< 32) where low is the little-endian u32 at payload
offset 338 and high the little-endian u32 at payload offset 342. -/
theorem c4_time_reference_offsets (size p fmtPayload : List Nat)
    (hsize : size.length = 4) (hp : p.length = 348) (hpb : ∀ b ∈ p, b < 256)
    (hf : fmtPayload.length = 16) :
    ∃ w bae, read_wave ([82, 73, 70, 70] ++ (size ++ ([87, 65, 86, 69] ++
        ([98, 101, 120, 116] ++ (le32enc 348 ++ (p ++
        ([102, 109, 116, 32] ++ (le32enc 16 ++ fmtPayload)))))))) = .ok w ∧
      w.bext = some bae ∧
      bae.time_reference = fromLE ((p.drop 338).take 4) |||
        (fromLE ((p.drop 342).take 4) <<< 32) := by
  refine ⟨_, decodeBext p, read_wave_bext_fmt size p fmtPayload hsize hp hpb hf,
    rfl, rfl⟩

/-- C4 witness: the amended offsets at a concrete payload. -/
theorem c4_time_reference_offsets_witness :
    ∃ w bae, read_wave ([82, 73, 70, 70] ++ (le32enc 0 ++ ([87, 65, 86, 69] ++
        ([98, 101, 120, 116] ++ (le32enc 348 ++ (p4 ++
        ([102, 109, 116, 32] ++ (le32enc 16 ++ List.replicate 16 0)))))))) = .ok w ∧
      w.bext = some bae ∧
      bae.time_reference = fromLE ((p4.drop 338).take 4) |||
        (fromLE ((p4.drop 342).take 4) <<< 32) :=
  c4_time_reference_offsets (le32enc 0) p4 (List.replicate 16 0) rfl
    (by decide) (by decide) rfl

/-- C6: bext text decoding — the description / originator /
originator-reference fields are the NUL-trimmed lossy decodes of their
256/32/32-byte windows, the 10-byte date and 8-byte time fields are the
untrimmed lossy decodes of their windows, trimming removes every trailing
NUL (and appended NUL runs change nothing), ASCII windows decode to
themselves at full width, and an invalid byte is replaced by U+FFFD
rather than failing the parse. -/
theorem c6_bext_text_fields (size p fmtPayload : List Nat)
    (hsize : size.length = 4) (hp : p.length = 348) (hpb : ∀ b ∈ p, b < 256)
    (hf : fmtPayload.length = 16) :
    (∃ w bae, read_wave ([82, 73, 70, 70] ++ (size ++ ([87, 65, 86, 69] ++
        ([98, 101, 120, 116] ++ (le32enc 348 ++ (p ++
        ([102, 109, 116, 32] ++ (le32enc 16 ++ fmtPayload)))))))) = .ok w ∧
      w.bext = some bae ∧
      bae.description = trimEnd0 (utf8Lossy (p.take 256)) ∧
      bae.originator = trimEnd0 (utf8Lossy ((p.drop 256).take 32)) ∧
      bae.originator_reference = trimEnd0 (utf8Lossy ((p.drop 288).take 32)) ∧
      bae.origination_date = utf8Lossy ((p.drop 320).take 10) ∧
      bae.origination_time = utf8Lossy ((p.drop 330).take 8)) ∧
    (∀ l : List Nat, (trimEnd0 l).getLast? ≠ some 0) ∧
    (∀ (l : List Nat) (k : Nat), trimEnd0 (l ++ List.replicate k 0) = trimEnd0 l) ∧
    (∀ l : List Nat, (∀ b ∈ l, b < 128) → utf8Lossy l = l) ∧
    utf8Lossy [255] = [65533] := by
  refine ⟨⟨_, decodeBext p, read_wave_bext_fmt size p fmtPayload hsize hp hpb hf,
    rfl, rfl, rfl, rfl, rfl, rfl⟩, trimEnd0_getLast?, trimEnd0_append_zeros,
    fun l hb => utf8Lossy_ascii hb, by decide⟩

/-- C6 witness: the field characterisation at a concrete payload. -/
theorem c6_bext_text_fields_witness :
    (∃ w bae, read_wave ([82, 73, 70, 70] ++ (le32enc 0 ++ ([87, 65, 86, 69] ++
        ([98, 101, 120, 116] ++ (le32enc 348 ++ (p4 ++
        ([102, 109, 116, 32] ++ (le32enc 16 ++ List.replicate 16 0)))))))) = .ok w ∧
      w.bext = some bae ∧
      bae.description = trimEnd0 (utf8Lossy (p4.take 256)) ∧
      bae.originator = trimEnd0 (utf8Lossy ((p4.drop 256).take 32)) ∧
      bae.originator_reference = trimEnd0 (utf8Lossy ((p4.drop 288).take 32)) ∧
      bae.origination_date = utf8Lossy ((p4.drop 320).take 10) ∧
      bae.origination_time = utf8Lossy ((p4.drop 330).take 8)) ∧
    (∀ l : List Nat, (trimEnd0 l).getLast? ≠ some 0) ∧
    (∀ (l : List Nat) (k : Nat), trimEnd0 (l ++ List.replicate k 0) = trimEnd0 l) ∧
    (∀ l : List Nat, (∀ b ∈ l, b < 128) → utf8Lossy l = l) ∧
    utf8Lossy [255] = [65533] :=
  c6_bext_text_fields (le32enc 0) p4 (List.replicate 16 0) rfl (by decide)
    (by decide) rfl

/-- C1: contrary to the claim, `read_wave` surfaces every decode-time
invariant violation as a process abort (an `assert!`/`panic!`), not as a
recoverable typed error: a zero-sized chunk, an undersized `fmt `, an
undersized `bext`, a duplicate `fmt `, a cue chunk-size mismatch, an
unknown cue discriminant and a missing `fmt ` chunk each end in the
`abort` outcome that models process termination. -/
theorem c1_aborts_on_violations :
    read_wave ([82, 73, 70, 70] ++ (le32enc 4 ++ ([87, 65, 86, 69] ++
        ([100, 97, 116, 97] ++ le32enc 0)))) =
      .error (.abort "assertion failed: chunk_size > 0") ∧
    read_wave ([82, 73, 70, 70] ++ (le32enc 0 ++ ([87, 65, 86, 69] ++
        ([102, 109, 116, 32] ++ le32enc 15)))) =
      .error (.abort "assertion failed: chunk_size >= 16") ∧
    read_wave ([82, 73, 70, 70] ++ (le32enc 0 ++ ([87, 65, 86, 69] ++
        ([98, 101, 120, 116] ++ le32enc 100)))) =
      .error (.abort "assertion failed: chunk_size as usize >= buf_bext.len()") ∧
    read_wave ([82, 73, 70, 70] ++ (le32enc 0 ++ ([87, 65, 86, 69] ++
        ([102, 109, 116, 32] ++ (le32enc 16 ++ (List.replicate 16 0 ++
        ([102, 109, 116, 32] ++ le32enc 16))))))) =
      .error (.abort "assertion failed: header.is_none()") ∧
    read_wave ([82, 73, 70, 70] ++ (le32enc 0 ++ ([87, 65, 86, 69] ++
        ([99, 117, 101, 32] ++ (le32enc 13 ++ le32enc 0))))) =
      .error (.abort "assertion failed: chunk_size == 4 + 24 * num_cue_points") ∧
    read_wave ([82, 73, 70, 70] ++ (le32enc 0 ++ ([87, 65, 86, 69] ++
        ([99, 117, 101, 32] ++ (le32enc 28 ++ (le32enc 1 ++
        ([0, 0, 0, 0, 0, 0, 0, 0, 97, 98, 99, 100] ++ List.replicate 12 0))))))) =
      .error (.abort "Aiee") ∧
    read_wave ([82, 73, 70, 70] ++ (le32enc 0 ++ [87, 65, 86, 69])) =
      .error (.abort "No header") :=
  ⟨rfl, rfl, rfl, rfl, rfl, rfl, rfl⟩

/-- C2 counterexample: with declared chunk size 36 and declared count
178956972, the mathematical size 4 + 24 × count is 4294967332 ≠ 36, yet
the u32 check passes (4294967332 ≡ 36 mod 2^32) and the parse fails with
an I/O error from the record reads, not with the size-mismatch abort. -/
theorem c2_counterexample :
    read_wave ([82, 73, 70, 70] ++ (le32enc 0 ++ ([87, 65, 86, 69] ++
        ([99, 117, 101, 32] ++ (le32enc 36 ++ le32enc 178956972))))) =
      .error .ioError ∧
    (36 : Nat) ≠ 4 + 24 * 178956972 ∧
    WaveError.ioError ≠
      WaveError.abort "assertion failed: chunk_size == 4 + 24 * num_cue_points" :=
  ⟨rfl, by decide, by decide⟩

/-- C2 (amended): a `cue ` chunk whose declared size differs from
4 + 24 × count computed in 32-bit wrapping arithmetic fails the parse at
the size check (with the reference's assert abort) before any record is
decoded. -/
theorem c2_cue_size_mismatch (size rest : List Nat) (sz cnt : Nat)
    (hsize : size.length = 4) (hsz : sz < 4294967296) (hsz0 : sz ≠ 0)
    (hcnt : cnt < 4294967296) (hmis : sz ≠ (4 + 24 * cnt) % 4294967296) :
    read_wave ([82, 73, 70, 70] ++ (size ++ ([87, 65, 86, 69] ++
        ([99, 117, 101, 32] ++ (le32enc sz ++ (le32enc cnt ++ rest)))))) =
      .error (.abort "assertion failed: chunk_size == 4 + 24 * num_cue_points") := by
  rw [read_wave_eq _ _ hsize]
  rw [walkChunks_cue sz cnt rest [] none none hsz hsz0 hcnt]
  rw [if_pos hmis]

/-- C2 witness: declared size 13 with count 1 aborts at the size check. -/
theorem c2_cue_size_mismatch_witness :
    read_wave ([82, 73, 70, 70] ++ (le32enc 0 ++ ([87, 65, 86, 69] ++
        ([99, 117, 101, 32] ++ (le32enc 13 ++ (le32enc 1 ++ [])))))) =
      .error (.abort "assertion failed: chunk_size == 4 + 24 * num_cue_points") :=
  c2_cue_size_mismatch (le32enc 0) [] 13 1 rfl (by decide) (by decide)
    (by decide) (by decide)

/-- C10: the cue size check is computed in 32-bit arithmetic: for count
178956971 the true size 4 + 24 × count is 4294967308, but the check
compares against its residue 12 mod 2^32, so a chunk declaring size 12
passes the check and the decoder goes on to attempt the record reads
(here failing with an I/O error on the first 24-byte read, not with the
size-mismatch abort). -/
theorem c10_cue_size_check_wraps :
    (4 + 24 * 178956971) % 4294967296 = 12 ∧
    (12 : Nat) ≠ 4 + 24 * 178956971 ∧
    read_wave ([82, 73, 70, 70] ++ (le32enc 0 ++ ([87, 65, 86, 69] ++
        ([99, 117, 101, 32] ++ (le32enc 12 ++ le32enc 178956971))))) =
      .error .ioError ∧
    WaveError.ioError ≠
      WaveError.abort "assertion failed: chunk_size == 4 + 24 * num_cue_points" :=
  ⟨by decide, by decide, rfl, by decide⟩

/-- C3: a cue record whose chunk-type tag at `[8:12)` is neither `data`
nor `sint` fails the whole parse with the `Aiee` abort — however many
well-formed records precede it and however many records were declared
after it; no truncated result is returned. -/
theorem c3_unknown_discriminant (size : List Nat) (good : List (List Nat))
    (bad rest : List Nat) (k : Nat) (hsize : size.length = 4)
    (hgood : ∀ r ∈ good, validCueRecord r)
    (hbad24 : bad.length = 24) (hbb : ∀ b ∈ bad, b < 256)
    (hd1 : (bad.drop 8).take 4 ≠ [100, 97, 116, 97])
    (hd2 : (bad.drop 8).take 4 ≠ [115, 105, 110, 116])
    (hszlt : 4 + 24 * (good.length + (k + 1)) < 4294967296) :
    read_wave ([82, 73, 70, 70] ++ (size ++ ([87, 65, 86, 69] ++
        ([99, 117, 101, 32] ++ (le32enc (4 + 24 * (good.length + (k + 1))) ++
        (le32enc (good.length + (k + 1)) ++ (good.flatten ++ (bad ++ rest)))))))) =
      .error (.abort "Aiee") := by
  rw [read_wave_eq _ _ hsize]
  rw [walkChunks_cue _ _ _ [] none none hszlt (by omega) (by omega)]
  rw [if_neg (show ¬ 4 + 24 * (good.length + (k + 1)) ≠
    (4 + 24 * (good.length + (k + 1))) % 4294967296 by
    rw [Nat.mod_eq_of_lt hszlt]; exact fun h => h rfl)]
  rw [readCuePoints_bad good k [] bad rest hgood hbad24 hbb hd1 hd2]

/-- C3 witness: one declared record with discriminant `abcd` aborts. -/
theorem c3_unknown_discriminant_witness :
    read_wave ([82, 73, 70, 70] ++ (le32enc 0 ++ ([87, 65, 86, 69] ++
        ([99, 117, 101, 32] ++ (le32enc (4 + 24 * (([] : List (List Nat)).length + (0 + 1))) ++
        (le32enc (([] : List (List Nat)).length + (0 + 1)) ++
        (([] : List (List Nat)).flatten ++
        (([0, 0, 0, 0, 0, 0, 0, 0, 97, 98, 99, 100] ++ List.replicate 12 0) ++ [3, 1, 4])))))))) =
      .error (.abort "Aiee") :=
  c3_unknown_discriminant (le32enc 0) [] ([0, 0, 0, 0, 0, 0, 0, 0, 97, 98, 99, 100] ++
      List.replicate 12 0) [3, 1, 4] 0 rfl
    (fun r hr => absurd hr (List.not_mem_nil r)) (by decide) (by decide)
    (by decide) (by decide) (by decide)

theorem cueLine_cueId (w : WaveFileInfo) (cue : CueEntry) :
    (cueLine w cue).cueId = cue.cue_id := by
  unfold cueLine
  cases w.bext <;> rfl

theorem process_lines {s : List Nat} {w : WaveFileInfo}
    (h : read_wave s = .ok w) :
    process s = .ok (w.cues.map (cueLine w)) := by
  unfold process
  rw [h]
  rfl

/-- C5: a `cue ` chunk holding N well-formed 24-byte records decodes to
exactly N cue entries, in on-disk order (entry i is the decode of record
i), and the reporting step emits exactly N lines whose i-th line carries
the i-th entry's cue id. -/
theorem c5_record_count_and_order (size fmtPayload : List Nat)
    (records : List (List Nat)) (hsize : size.length = 4)
    (hf : fmtPayload.length = 16)
    (hrec : ∀ r ∈ records, validCueRecord r)
    (hlt : 4 + 24 * records.length < 4294967296) :
    ∃ w lines,
      read_wave ([82, 73, 70, 70] ++ (size ++ ([87, 65, 86, 69] ++
        ([102, 109, 116, 32] ++ (le32enc 16 ++ (fmtPayload ++
        ([99, 117, 101, 32] ++ (le32enc (4 + 24 * records.length) ++
        (le32enc records.length ++ records.flatten))))))))) = .ok w ∧
      process ([82, 73, 70, 70] ++ (size ++ ([87, 65, 86, 69] ++
        ([102, 109, 116, 32] ++ (le32enc 16 ++ (fmtPayload ++
        ([99, 117, 101, 32] ++ (le32enc (4 + 24 * records.length) ++
        (le32enc records.length ++ records.flatten))))))))) = .ok lines ∧
      w.cues.length = records.length ∧
      (∀ i (h1 : i < records.length) (h2 : i < w.cues.length),
        decodeCue (records.get ⟨i, h1⟩) = .ok (w.cues.get ⟨i, h2⟩)) ∧
      lines.length = w.cues.length ∧
      (∀ i (h1 : i < lines.length) (h2 : i < w.cues.length),
        (lines.get ⟨i, h1⟩).cueId = (w.cues.get ⟨i, h2⟩).cue_id) := by
  obtain ⟨entries, he1, he2, he3⟩ := readCuePoints_good records [] [] hrec
  rw [List.append_nil, List.nil_append] at he1
  have hrun : read_wave ([82, 73, 70, 70] ++ (size ++ ([87, 65, 86, 69] ++
      ([102, 109, 116, 32] ++ (le32enc 16 ++ (fmtPayload ++
      ([99, 117, 101, 32] ++ (le32enc (4 + 24 * records.length) ++
      (le32enc records.length ++ records.flatten))))))))) =
      .ok { header := decodeFmt ((fmtPayload.take 16).map (· % 256)),
            cues := entries, bext := none } := by
    rw [read_wave_eq _ _ hsize]
    rw [walkChunks_fmt 16 fmtPayload
      ([99, 117, 101, 32] ++ (le32enc (4 + 24 * records.length) ++
        (le32enc records.length ++ records.flatten)))
      [] none (by omega) (by omega) hf]
    rw [walkChunks_cue (4 + 24 * records.length) records.length records.flatten
      [] none (some (decodeFmt ((fmtPayload.take 16).map (· % 256)))) hlt
      (by omega) (by omega)]
    rw [if_neg (show ¬ 4 + 24 * records.length ≠
      (4 + 24 * records.length) % 4294967296 by
      rw [Nat.mod_eq_of_lt hlt]; exact fun h => h rfl)]
    simp only [he1]
    rw [walkChunks_short (by simp) _ _ _]
  refine ⟨_, _, hrun, process_lines hrun, he2, ?_, List.length_map _ _, ?_⟩
  · intro i h1 h2
    exact he3 i h1 (by simpa using h2)
  · intro i h1 h2
    simp only [List.get_eq_getElem, List.getElem_map]
    exact cueLine_cueId _ _

/-- C5 witness: two concrete records decode to two entries and two lines. -/
theorem c5_record_count_and_order_witness :
    ∃ w lines,
      read_wave ([82, 73, 70, 70] ++ (le32enc 0 ++ ([87, 65, 86, 69] ++
        ([102, 109, 116, 32] ++ (le32enc 16 ++ (List.replicate 16 0 ++
        ([99, 117, 101, 32] ++ (le32enc (4 + 24 * recsW.length) ++
        (le32enc recsW.length ++ recsW.flatten))))))))) = .ok w ∧
      process ([82, 73, 70, 70] ++ (le32enc 0 ++ ([87, 65, 86, 69] ++
        ([102, 109, 116, 32] ++ (le32enc 16 ++ (List.replicate 16 0 ++
        ([99, 117, 101, 32] ++ (le32enc (4 + 24 * recsW.length) ++
        (le32enc recsW.length ++ recsW.flatten))))))))) = .ok lines ∧
      w.cues.length = recsW.length ∧
      (∀ i (h1 : i < recsW.length) (h2 : i < w.cues.length),
        decodeCue (recsW.get ⟨i, h1⟩) = .ok (w.cues.get ⟨i, h2⟩)) ∧
      lines.length = w.cues.length ∧
      (∀ i (h1 : i < lines.length) (h2 : i < w.cues.length),
        (lines.get ⟨i, h1⟩).cueId = (w.cues.get ⟨i, h2⟩).cue_id) :=
  c5_record_count_and_order (le32enc 0) (List.replicate 16 0) recsW rfl (by decide)
    (by intro r hr
        simp only [recsW, List.mem_cons, List.not_mem_nil, or_false] at hr
        rcases hr with h | h <;> subst h <;>
          exact ⟨by decide, by decide, by decide⟩)
    (by decide)

/-- C7: a chunk whose tag is none of `bext`, `fmt `, `cue ` (and whose
declared size is its payload length, nonzero as §4.4b requires) is
skipped by advancing exactly chunk_size bytes: the whole parse result
equals that of the same file with the unknown chunk removed. -/
theorem c7_unknown_chunk_transparent (size tag payload rest : List Nat)
    (hsize : size.length = 4) (htag : tag.length = 4)
    (hbx : tag.map (· % 256) ≠ [98, 101, 120, 116])
    (hfm : tag.map (· % 256) ≠ [102, 109, 116, 32])
    (hcu : tag.map (· % 256) ≠ [99, 117, 101, 32])
    (hp0 : payload.length ≠ 0) (hplt : payload.length < 4294967296) :
    read_wave ([82, 73, 70, 70] ++ (size ++ ([87, 65, 86, 69] ++
        (tag ++ (le32enc payload.length ++ (payload ++ rest)))))) =
      read_wave ([82, 73, 70, 70] ++ (size ++ ([87, 65, 86, 69] ++ rest))) := by
  rw [read_wave_eq _ _ hsize, read_wave_eq _ _ hsize]
  rw [walkChunks_skip tag payload.length payload rest [] none none htag
    hbx hfm hcu hplt hp0 rfl]

/-- C7 witness: a `JUNK` chunk between the container header and the
`fmt ` chunk does not change the parse. -/
theorem c7_unknown_chunk_transparent_witness :
    read_wave ([82, 73, 70, 70] ++ (le32enc 0 ++ ([87, 65, 86, 69] ++
        ([74, 85, 78, 75] ++ (le32enc ([7, 7, 7] : List Nat).length ++ ([7, 7, 7] ++
        ([102, 109, 116, 32] ++ (le32enc 16 ++ List.replicate 16 0)))))))) =
      read_wave ([82, 73, 70, 70] ++ (le32enc 0 ++ ([87, 65, 86, 69] ++
        ([102, 109, 116, 32] ++ (le32enc 16 ++ List.replicate 16 0))))) :=
  c7_unknown_chunk_transparent (le32enc 0) [74, 85, 78, 75] [7, 7, 7]
    ([102, 109, 116, 32] ++ (le32enc 16 ++ List.replicate 16 0)) rfl rfl
    (by decide) (by decide) (by decide) (by decide) (by decide)

/-- C9: failure to read the next 4-byte chunk tag is the loop's normal
exit: when the chunk walk consumes a body exactly and a `fmt ` chunk was
decoded, appending 1–3 leftover bytes (a file truncated mid-tag) yields
the very same successful result as the cleanly ended file. -/
theorem c9_truncated_tag_is_normal_eof (size body extra : List Nat)
    (c : List CueEntry) (b : Option BroadcastAudioExtension) (h : Header)
    (hsize : size.length = 4) (hextra : extra.length < 4)
    (hbody : walkChunks body [] none none = .ok (c, b, some h, [])) :
    read_wave ([82, 73, 70, 70] ++ (size ++ ([87, 65, 86, 69] ++ (body ++ extra)))) =
      .ok { header := h, cues := c, bext := b } ∧
    read_wave ([82, 73, 70, 70] ++ (size ++ ([87, 65, 86, 69] ++ body))) =
      .ok { header := h, cues := c, bext := b } := by
  constructor
  · obtain ⟨r, hr, -⟩ := walkChunks_extend hextra hbody
    rw [read_wave_eq _ _ hsize]
    simp only [hr]
  · rw [read_wave_eq _ _ hsize]
    simp only [hbody]

/-- C9 witness: a minimal fmt-only file with 3 trailing bytes parses to
the same result as without them. -/
theorem c9_truncated_tag_is_normal_eof_witness :
    read_wave ([82, 73, 70, 70] ++ (le32enc 0 ++ ([87, 65, 86, 69] ++
        (([102, 109, 116, 32] ++ (le32enc 16 ++ List.replicate 16 0)) ++ [1, 2, 3])))) =
      .ok { header := ⟨0, 0, 0, 0, 0, 0⟩, cues := [], bext := none } ∧
    read_wave ([82, 73, 70, 70] ++ (le32enc 0 ++ ([87, 65, 86, 69] ++
        ([102, 109, 116, 32] ++ (le32enc 16 ++ List.replicate 16 0))))) =
      .ok { header := ⟨0, 0, 0, 0, 0, 0⟩, cues := [], bext := none } :=
  c9_truncated_tag_is_normal_eof (le32enc 0)
    ([102, 109, 116, 32] ++ (le32enc 16 ++ List.replicate 16 0)) [1, 2, 3]
    [] none _ rfl (by decide) rfl

/-- C8: two streams of equal length that agree everywhere except in the
4-byte declared RIFF payload size at offsets 4..8 parse identically: the
declared size is read and then influences nothing in the result. -/
theorem c8_declared_size_immaterial (s t : List Nat) (hlen : s.length = t.length)
    (hagree : ∀ i : Nat, i < 4 ∨ 8 ≤ i → s[i]? = t[i]?) :
    read_wave s = read_wave t := by
  have htake : s.take 4 = t.take 4 := by
    apply List.ext_getElem?_iff.mpr
    intro i
    rw [List.getElem?_take, List.getElem?_take]
    split_ifs with hi
    · exact hagree i (Or.inl hi)
    · rfl
  have hdrop : s.drop 8 = t.drop 8 := by
    apply List.ext_getElem?_iff.mpr
    intro i
    rw [List.getElem?_drop, List.getElem?_drop]
    exact hagree (8 + i) (Or.inr (by omega))
  have hdrop' : s.drop (4 + 4) = t.drop (4 + 4) := by simpa using hdrop
  unfold read_wave
  by_cases h4 : 4 ≤ s.length
  · have e1 : readExact 4 s = some ((s.take 4).map (· % 256), s.drop 4) := by
      unfold readExact
      rw [if_pos h4]
    have e2 : readExact 4 t = some ((t.take 4).map (· % 256), t.drop 4) := by
      unfold readExact
      rw [if_pos (by omega)]
    simp only [e1, e2, htake]
    by_cases hR : (t.take 4).map (· % 256) = [82, 73, 70, 70]
    · rw [if_pos hR, if_pos hR]
      by_cases h8 : 8 ≤ s.length
      · have e3 : readExact 4 (s.drop 4) =
            some (((s.drop 4).take 4).map (· % 256), (s.drop 4).drop 4) := by
          unfold readExact
          rw [if_pos (by rw [List.length_drop]; omega)]
        have e4 : readExact 4 (t.drop 4) =
            some (((t.drop 4).take 4).map (· % 256), (t.drop 4).drop 4) := by
          unfold readExact
          rw [if_pos (by rw [List.length_drop]; omega)]
        simp only [e3, e4]
        rw [List.drop_drop, List.drop_drop, hdrop']
      · have e3 : readExact 4 (s.drop 4) = none :=
          readExact_none (by rw [List.length_drop]; omega)
        have e4 : readExact 4 (t.drop 4) = none :=
          readExact_none (by rw [List.length_drop]; omega)
        simp only [e3, e4]
    · rw [if_neg hR, if_neg hR]
  · rw [readExact_none (by omega), readExact_none (by omega)]

/-- C8 witness: the same 36-byte fmt-only file with declared sizes
151587081 and 50463176 parses identically. -/
theorem c8_declared_size_immaterial_witness :
    read_wave [82, 73, 70, 70, 9, 9, 9, 9, 87, 65, 86, 69, 102, 109, 116, 32,
        16, 0, 0, 0, 0, 0, 0, 0, 0, 0, 0, 0, 0, 0, 0, 0, 0, 0, 0, 0] =
      read_wave [82, 73, 70, 70, 200, 1, 2, 3, 87, 65, 86, 69, 102, 109, 116, 32,
        16, 0, 0, 0, 0, 0, 0, 0, 0, 0, 0, 0, 0, 0, 0, 0, 0, 0, 0, 0] :=
  c8_declared_size_immaterial _ _ rfl (by
    intro i hi
    by_cases h36 : i < 36
    · interval_cases i <;> first | rfl | (rcases hi with h | h <;> omega)
    · rw [List.getElem?_eq_none (by simp only [List.length_cons, List.length_nil]; omega),
        List.getElem?_eq_none (by simp only [List.length_cons, List.length_nil]; omega)])
